import Mathlib

/-!
Verification of the prevo/recto data-acquisition, control and live-plot code.

Shallow embedding conventions:
* Python floats are modelled as rationals (ℚ); the claims under study are
  exact algebraic statements, not floating-point ones.
* Python None is modelled with Option.
* A Python exception that escapes the modelled code is an `Except.error`.
* Dictionaries are association lists in insertion order, matching Python
  dict iteration order.
-/

set_option maxHeartbeats 1000000

-- ---------------------------------------------------------------------------
-- prevo/control/control.py : Control and PeriodicControl
-- ---------------------------------------------------------------------------

namespace Control

/-- Control._check_range_limits, lower bound test.
Source computes value_min = vmin if vmin is not None else -inf and compares
value_min <= value; a None bound therefore never rejects a value
(v < -inf is impossible for a float comparison without NaN). -/
def lowerOk (vmin : Option ℚ) (v : ℚ) : Bool :=
  match vmin with
  | none => true
  | some m => decide (m ≤ v)

/-- Control._check_range_limits, upper bound test (value <= value_max,
with value_max = +inf when vmax is None). -/
def upperOk (vmax : Option ℚ) (v : ℚ) : Bool :=
  match vmax with
  | none => true
  | some M => decide (v ≤ M)

/-- Control._check_range_limits (control.py lines 109-126):
return value if value_min <= value <= value_max, else the violated bound
(value_min when value < value_min, otherwise value_max).  The branch
returning value_min is reachable only with vmin set (v < -inf is impossible),
so the getD defaults are never used. -/
def check_range_limits (vmin vmax : Option ℚ) (v : ℚ) : ℚ :=
  if lowerOk vmin v && upperOk vmax v then v
  else if !lowerOk vmin v then vmin.getD v
  else vmax.getD v

/-- PeriodicControl._check_range_and_apply_setting (control.py lines 308-318):
the setting handed to apply_setting is the range-clamped value of the
converted input.  `conv` models the subclass-defined _convert_input. -/
def check_range_and_apply_setting (conv : ℚ → ℚ) (vmin vmax : Option ℚ)
    (v : ℚ) : ℚ :=
  check_range_limits vmin vmax (conv v)

/-- The per-tick setting of PeriodicControl._ramp (control.py line 392):
setting = v1 + t / t_ramp * (v2 - v1) if t_ramp > 0 else v2. -/
def rampTickSetting (v1 v2 T t : ℚ) : ℚ :=
  if 0 < T then v1 + t / T * (v2 - v1) else v2

/-- Outcome of the while-loop of PeriodicControl._ramp:
the successive settings handed to apply_setting, whether the manual-stop
marker "==X Manual STOP" was logged, and whether the final while-else
application of v2 happened. -/
structure RampResult where
  applied : List ℚ
  manualStop : Bool
  finalApplied : Bool
deriving DecidableEq, Repr

/-- The while-loop of PeriodicControl._ramp (control.py lines 388-406), driven
by a finite trace of ticks.  A tick (t, s) means: the iteration observes
elapsed_time = t (at the guard and in the body), and s is the state of
stop_event observed after timer.checkpt().  Returns none when the trace is
exhausted before the loop exits (the real loop would keep running).
When the guard t <= t_ramp fails, the while-else branch runs: for a dwell it
only logs, otherwise it applies v2 once (converted and clamped). -/
def rampLoop (dwell : Bool) (conv : ℚ → ℚ) (vmin vmax : Option ℚ)
    (v1 v2 T : ℚ) : List (ℚ × Bool) → Option RampResult
  | [] => none
  | (t, s) :: rest =>
    if t ≤ T then
      let appliedNow : List ℚ :=
        if dwell then []
        else [check_range_and_apply_setting conv vmin vmax
                (rampTickSetting v1 v2 T t)]
      if s then
        some ⟨appliedNow, true, false⟩
      else
        (rampLoop dwell conv vmin vmax v1 v2 T rest).map
          (fun r => ⟨appliedNow ++ r.applied, r.manualStop, r.finalApplied⟩)
    else
      if dwell then some ⟨[], false, false⟩
      else some ⟨[check_range_and_apply_setting conv vmin vmax v2],
                 false, true⟩

/-- C6. The range clamp returns v when the (optional) bounds admit it, else
the nearest bound with the below-minimum case taking priority; the result
always lies within the bounds, and the clamp is idempotent.  The hypothesis
hord states that the limits are a well-formed range (min <= max), as implied
by the data model "a range (min, max)". -/
theorem control_c6_clamp (vmin vmax : Option ℚ) (v : ℚ)
    (hord : ∀ m M, vmin = some m → vmax = some M → m ≤ M) :
    ((∀ m, vmin = some m → m ≤ v) → (∀ M, vmax = some M → v ≤ M) →
        check_range_limits vmin vmax v = v) ∧
    (∀ m, vmin = some m → v < m → check_range_limits vmin vmax v = m) ∧
    (∀ M, vmax = some M → M < v → (∀ m, vmin = some m → m ≤ v) →
        check_range_limits vmin vmax v = M) ∧
    (∀ m, vmin = some m → m ≤ check_range_limits vmin vmax v) ∧
    (∀ M, vmax = some M → check_range_limits vmin vmax v ≤ M) ∧
    check_range_limits vmin vmax (check_range_limits vmin vmax v)
      = check_range_limits vmin vmax v := by
  obtain ⟨m, rfl⟩ | rfl : (∃ m, vmin = some m) ∨ vmin = none := by
    cases vmin <;> simp
  · obtain ⟨M, rfl⟩ | rfl : (∃ M, vmax = some M) ∨ vmax = none := by
      cases vmax <;> simp
    · have hmM : m ≤ M := hord m M rfl rfl
      simp only [check_range_limits, lowerOk, upperOk, Option.getD_some]
      rcases le_or_lt m v with hm | hm
      · rcases le_or_lt v M with hM | hM
        · rw [if_pos (by simp [hm, hM])]
          refine ⟨fun _ _ => rfl, ?_, ?_, ?_, ?_, ?_⟩
          · rintro m' ⟨rfl⟩ hlt; exact absurd hm (not_le.mpr hlt)
          · rintro M' ⟨rfl⟩ hlt _; exact absurd hM (not_le.mpr hlt)
          · rintro m' ⟨rfl⟩; exact hm
          · rintro M' ⟨rfl⟩; exact hM
          · rw [if_pos (by simp [hm, hM])]
        · rw [if_neg (by simp [not_le.mpr hM]), if_neg (by simp [hm])]
          refine ⟨?_, ?_, ?_, ?_, ?_, ?_⟩
          · intro _ h2; exact absurd (h2 M rfl) (not_le.mpr hM)
          · rintro m' ⟨rfl⟩ hlt; exact absurd hm (not_le.mpr hlt)
          · rintro M' ⟨rfl⟩ _ _; rfl
          · rintro m' ⟨rfl⟩; exact hmM
          · rintro M' ⟨rfl⟩; exact le_refl M
          · rw [if_pos (by simp [hmM])]
      · rw [if_neg (by simp [not_le.mpr hm]), if_pos (by simp [not_le.mpr hm])]
        refine ⟨?_, ?_, ?_, ?_, ?_, ?_⟩
        · intro h1 _; exact absurd (h1 m rfl) (not_le.mpr hm)
        · rintro m' ⟨rfl⟩ _; rfl
        · rintro M' ⟨rfl⟩ _ h; exact absurd (h m rfl) (not_le.mpr hm)
        · rintro m' ⟨rfl⟩; exact le_refl m
        · rintro M' ⟨rfl⟩; exact hmM
        · rw [if_pos (by simp [hmM])]
    · simp only [check_range_limits, lowerOk, upperOk, Bool.and_true,
        Option.getD_some]
      rcases le_or_lt m v with hm | hm
      · rw [if_pos (by simp [hm])]
        refine ⟨fun _ _ => rfl, ?_, ?_, ?_, ?_, ?_⟩
        · rintro m' ⟨rfl⟩ hlt; exact absurd hm (not_le.mpr hlt)
        · rintro M' ⟨⟩
        · rintro m' ⟨rfl⟩; exact hm
        · rintro M' ⟨⟩
        · rw [if_pos (by simp [hm])]
      · rw [if_neg (by simp [not_le.mpr hm]), if_pos (by simp [not_le.mpr hm])]
        refine ⟨?_, ?_, ?_, ?_, ?_, ?_⟩
        · intro h1 _; exact absurd (h1 m rfl) (not_le.mpr hm)
        · rintro m' ⟨rfl⟩ _; rfl
        · rintro M' ⟨⟩
        · rintro m' ⟨rfl⟩; exact le_refl m
        · rintro M' ⟨⟩
        · rw [if_pos (by simp)]
  · obtain ⟨M, rfl⟩ | rfl : (∃ M, vmax = some M) ∨ vmax = none := by
      cases vmax <;> simp
    · simp only [check_range_limits, lowerOk, upperOk, Bool.true_and,
        Bool.not_true, Option.getD_some]
      rcases le_or_lt v M with hM | hM
      · rw [if_pos (by simp [hM])]
        refine ⟨fun _ _ => rfl, ?_, ?_, ?_, ?_, ?_⟩
        · rintro m' ⟨⟩
        · rintro M' ⟨rfl⟩ hlt; exact absurd hM (not_le.mpr hlt)
        · rintro m' ⟨⟩
        · rintro M' ⟨rfl⟩; exact hM
        · rw [if_pos (by simp [hM])]
      · rw [if_neg (by simp [not_le.mpr hM]), if_neg (by simp)]
        refine ⟨?_, ?_, ?_, ?_, ?_, ?_⟩
        · intro _ h2; exact absurd (h2 M rfl) (not_le.mpr hM)
        · rintro m' ⟨⟩
        · rintro M' ⟨rfl⟩ _ _; rfl
        · rintro m' ⟨⟩
        · rintro M' ⟨rfl⟩; exact le_refl M
        · rw [if_pos (by simp)]
    · refine ⟨fun _ _ => ?_, ?_, ?_, ?_, ?_, ?_⟩ <;>
        first
          | rintro m' ⟨⟩
          | simp [check_range_limits, lowerOk, upperOk]

/-- C5. For a non-dwell ramp (v1 ≠ v2, hence dwell = false) of duration T > 0:
(i) a tick with elapsed time t ≤ T and stop unset applies the range-clamped
converted interpolation v1 + (t/T)·(v2−v1) and continues the loop;
(ii) a tick with t > T exits the loop through the while-else branch after one
final clamped application of v2;
(iii) a tick with t ≤ T on which stop is observed applies the interpolation,
logs the manual-stop marker and returns without the final v2 application. -/
theorem control_c5_ramp (conv : ℚ → ℚ) (vmin vmax : Option ℚ) (v1 v2 T : ℚ)
    (_hne : v1 ≠ v2) (hT : 0 < T) :
    (∀ t s rest, t ≤ T →
      rampLoop false conv vmin vmax v1 v2 T ((t, s) :: rest) =
        (if s then
          some ⟨[check_range_limits vmin vmax (conv (v1 + t / T * (v2 - v1)))],
                true, false⟩
        else
          (rampLoop false conv vmin vmax v1 v2 T rest).map
            (fun r =>
              ⟨check_range_limits vmin vmax (conv (v1 + t / T * (v2 - v1)))
                 :: r.applied, r.manualStop, r.finalApplied⟩))) ∧
    (∀ t s rest, T < t →
      rampLoop false conv vmin vmax v1 v2 T ((t, s) :: rest) =
        some ⟨[check_range_limits vmin vmax (conv v2)], false, true⟩) ∧
    (∀ t rest, t ≤ T →
      rampLoop false conv vmin vmax v1 v2 T ((t, true) :: rest) =
        some ⟨[check_range_limits vmin vmax (conv (v1 + t / T * (v2 - v1)))],
              true, false⟩) := by
  have hset : ∀ t : ℚ, rampTickSetting v1 v2 T t = v1 + t / T * (v2 - v1) := by
    intro t; simp [rampTickSetting, hT]
  refine ⟨?_, ?_, ?_⟩
  · intro t s rest ht
    cases s <;>
      simp [rampLoop, ht, hset, check_range_and_apply_setting]
  · intro t s rest ht
    simp [rampLoop, not_le.mpr ht, check_range_and_apply_setting]
  · intro t rest ht
    simp [rampLoop, ht, hset, check_range_and_apply_setting]

/-- Witness for control_c5_ramp: ramp from 0 to 10 in T = 10 with limits
(0, 8) and identity conversion; the tick at t = 5 with stop observed applies
clamp(5) = 5, logs the manual-stop marker and skips the final v2. -/
theorem control_c5_ramp_witness :
    (0:ℚ) ≠ 10 ∧ (0:ℚ) < 10 ∧
    rampLoop false id (some 0) (some 8) 0 10 10 [((5:ℚ), true)] =
      some ⟨[5], true, false⟩ := by
  refine ⟨by norm_num, by norm_num, ?_⟩
  have h := (control_c5_ramp id (some 0) (some 8) 0 10 10
    (by norm_num) (by norm_num)).2.2 5 [] (by norm_num)
  rw [h]
  norm_num [check_range_limits, lowerOk, upperOk]

/-- C10. When the parsed duration t_ramp is 0, the per-tick setting of a
non-dwell ramp is v2 itself (the guard t_ramp > 0 selects the v2 branch, so
no division by zero is performed), and a tick that passes the loop guard
applies the clamped converted v2. -/
theorem control_c10_zero_duration :
    (∀ v1 v2 t : ℚ, rampTickSetting v1 v2 0 t = v2) ∧
    (∀ (conv : ℚ → ℚ) (vmin vmax : Option ℚ) (v1 v2 t : ℚ)
       (rest : List (ℚ × Bool)), t ≤ 0 →
      rampLoop false conv vmin vmax v1 v2 0 ((t, true) :: rest) =
        some ⟨[check_range_limits vmin vmax (conv v2)], true, false⟩) := by
  constructor
  · intro v1 v2 t; simp [rampTickSetting]
  · intro conv vmin vmax v1 v2 t rest ht
    simp [rampLoop, ht, rampTickSetting, check_range_and_apply_setting]

/-- Witness for control_c10_zero_duration at a concrete zero-duration ramp. -/
theorem control_c10_zero_duration_witness :
    rampTickSetting 3 7 0 (5:ℚ) = 7 ∧
    ((0:ℚ) ≤ 0 ∧
     rampLoop false id none none 3 7 0 [((0:ℚ), true)] =
       some ⟨[7], true, false⟩) := by
  refine ⟨control_c10_zero_duration.1 3 7 5, le_refl 0, ?_⟩
  have h := control_c10_zero_duration.2 id none none 3 7 0 [] (le_refl 0)
  rw [h]
  norm_num [check_range_limits, lowerOk, upperOk]

/-- Witness for control_c6_clamp at vmin = some 0, vmax = some 100, v = 150. -/
theorem control_c6_clamp_witness :
    (∀ m M, (some (0:ℚ)) = some m → (some (100:ℚ)) = some M → m ≤ M) ∧
    check_range_limits (some 0) (some 100) (150:ℚ) = 100 := by
  refine ⟨by rintro m M ⟨rfl⟩ ⟨rfl⟩; norm_num, ?_⟩
  have h := control_c6_clamp (some 0) (some 100) (150:ℚ)
    (by rintro m M ⟨rfl⟩ ⟨rfl⟩; norm_num)
  exact h.2.2.1 100 rfl (by norm_num) (by rintro m ⟨rfl⟩; norm_num)

end Control

-- ---------------------------------------------------------------------------
-- src/recto/record.py : RecordBase.data_read and RecordBase.init_properties
-- ---------------------------------------------------------------------------

namespace Recto

/-- Outcome of one sensor.read() call in the reader loop: either data
(opaque payload, modelled as ℕ) or a raised SensorError. -/
inductive ReadOutcome where
  | success (data : ℕ)
  | failure
deriving DecidableEq, Repr

/-- A Python exception escaping the modelled code. -/
inductive PyError where
  | typeError
  | nameError
deriving DecidableEq, Repr

/-- The reader-loop state of RecordBase.data_read for one recording:
the failed_reading flag, and the contents of the save and plot queues
(q_save[name] and q_plot[name]). -/
structure ReaderState where
  failedReading : Bool
  saveQueue : List ℕ
  plotQueue : List ℕ
deriving DecidableEq, Repr

/-- One iteration of the while-loop body of RecordBase.data_read
(record.py lines 371-404), given the state of e_graph and the outcome of
sensor.read().  In both branches that call print_info_on_failed_reading, the
source passes two positional arguments (recording.name and the status) to a
method declared as print_info_on_failed_reading(self, status)
(record.py line 134), so the call raises TypeError, which propagates and
terminates the loop; the modelled iteration returns that error.
On a success with no preceding failure, the measurement is formatted and put
into the save queue unconditionally, and into the plot queue when
e_graph.is_set(). -/
def dataReadIteration (graph : Bool) (st : ReaderState) (o : ReadOutcome) :
    Except PyError ReaderState :=
  match o with
  | .failure =>
    if !st.failedReading then
      .error .typeError
    else
      .ok st
  | .success m =>
    if st.failedReading then
      .error .typeError
    else
      .ok { st with
            saveQueue := st.saveQueue ++ [m],
            plotQueue := if graph then st.plotQueue ++ [m] else st.plotQueue }

/-- The reader loop of RecordBase.data_read over a finite trace of read
outcomes (the loop also stops when e_stop is set; a trace end models that). -/
def dataReadLoop (graph : Bool) :
    ReaderState → List ReadOutcome → Except PyError ReaderState
  | st, [] => .ok st
  | st, o :: rest =>
    match dataReadIteration graph st o with
    | .error e => .error e
    | .ok st' => dataReadLoop graph st' rest

/-- Claim C1 as stated: a formatted measurement is put into the save queue iff
the saving flag is true at format time, and into the plot queue iff the graph
event is set and the active flag is true.  The saving and active booleans are
the per-recording flags of the data model in the specification; the source
loop consults neither of them. -/
def ClaimC1 : Prop :=
  ∀ (saving active graph : Bool) (st st' : ReaderState) (m : ℕ),
    st.failedReading = false →
    dataReadIteration graph st (.success m) = .ok st' →
    ((st'.saveQueue = st.saveQueue ++ [m]) ↔ saving = true) ∧
    ((st'.plotQueue = st.plotQueue ++ [m]) ↔ (graph = true ∧ active = true))

/-- C1, counterexample: with saving = false (and graph set, active = false)
the formatted measurement is still put into the save queue and into the plot
queue, so the claimed iff fails. -/
theorem recto_c1_counterexample : ¬ ClaimC1 := by
  intro h
  have h0 := h false false true ⟨false, [], []⟩ ⟨false, [0], [0]⟩ 0 rfl rfl
  have h1 : ([0] : List ℕ) = [] ++ [0] := rfl
  exact absurd (h0.1.mp h1) (by simp)

/-- C1 amended: every measurement formatted by the reader loop is put into the
save queue unconditionally, and is put into the plot queue iff the graph
event is set at format time. -/
theorem recto_c1_amended (graph : Bool) (st st' : ReaderState) (m : ℕ)
    (hok : st.failedReading = false)
    (hstep : dataReadIteration graph st (.success m) = .ok st') :
    st'.saveQueue = st.saveQueue ++ [m] ∧
    ((st'.plotQueue = st.plotQueue ++ [m]) ↔ graph = true) := by
  have hst' : st' = { st with
      saveQueue := st.saveQueue ++ [m],
      plotQueue := if graph then st.plotQueue ++ [m] else st.plotQueue } := by
    simpa [dataReadIteration, hok] using hstep.symm
  subst hst'
  refine ⟨rfl, ?_⟩
  cases graph <;> simp

/-- Witness for recto_c1_amended on a fresh state with graph set. -/
theorem recto_c1_amended_witness :
    (⟨false, [], []⟩ : ReaderState).failedReading = false ∧
    dataReadIteration true ⟨false, [], []⟩ (.success 7) =
      .ok ⟨false, [7], [7]⟩ ∧
    (([7] : List ℕ) = [] ++ [7] ∧ (([7] : List ℕ) = [] ++ [7] ↔ true = true)) := by
  exact ⟨rfl, rfl, recto_c1_amended true ⟨false, [], []⟩ ⟨false, [7], [7]⟩ 7 rfl rfl⟩

/-- C2. The code contradicts the claim: on the first failed reading
(failed_reading still false), data_read calls
recording.print_info_on_failed_reading(recording.name, "failed"), passing two
positional arguments to a one-parameter method, so TypeError is raised and
the reader loop terminates although the stop event was never set and no
failure message was printed. -/
theorem recto_c2_first_failure_kills_loop :
    dataReadLoop false ⟨false, [], []⟩ [.failure] = .error .typeError ∧
    dataReadLoop false ⟨false, [], []⟩ [.success 1, .failure, .success 2] =
      .error .typeError := by
  exact ⟨rfl, rfl⟩

/-- Values passed as keyword arguments or stored in the settings dicts of
RecordBase.init_properties (Python objects used as dict keys or values). -/
inductive PyVal where
  | str (s : String)
  | num (n : ℤ)
deriving DecidableEq, Repr

/-- One per-recording settings dict: Python dict in insertion order, with
PyVal keys and values None or a PyVal. -/
abbrev SettingsDict := List (PyVal × Option PyVal)

/-- Python dict assignment d[k] = v: update in place if the key exists,
else append. -/
def dictSet (d : SettingsDict) (k : PyVal) (v : Option PyVal) : SettingsDict :=
  match d with
  | [] => [(k, v)]
  | (k', v') :: rest =>
    if k' = k then (k, v) :: rest else (k', v') :: dictSet rest k v

/-- Assignment initial_ppty_settings[name][key] = value on the outer dict. -/
def settingsSet (s : List (String × SettingsDict)) (name : String)
    (k : PyVal) (v : Option PyVal) : List (String × SettingsDict) :=
  s.map (fun (n, d) => if n = name then (n, dictSet d k v) else (n, d))

/-- The generic branch of init_properties for one property command
(record.py lines 263-269): when ppty_kwargs contains ppty_cmd with value
`value`, run for name in self.recordings:
initial_ppty_settings[name][value] = ppty_cmd  — note the swapped index and
value — and leave the Python variable name bound to the last recording. -/
def initPropertiesGeneric (recordingNames : List String) (pptyCmd : String)
    (value : PyVal) (st : List (String × SettingsDict) × Option String) :
    List (String × SettingsDict) × Option String :=
  match recordingNames with
  | [] => st
  | name :: rest =>
    initPropertiesGeneric rest pptyCmd value
      (settingsSet st.1 name value (some (.str pptyCmd)), some name)

/-- The targeted branch of init_properties for one property command
(record.py lines 273-280): for each recording_name, when ppty_kwargs contains
f"{ppty_cmd}_{recording_name}" with value `value`, run
initial_ppty_settings[name][value] = ppty_cmd — with `name`, the stale
variable of the generic loop, not recording_name; if `name` was never bound,
Python raises NameError. -/
def initPropertiesTargeted (pptyKwargs : List (String × PyVal))
    (recordingNames : List String) (pptyCmd : String)
    (st : List (String × SettingsDict) × Option String) :
    Except PyError (List (String × SettingsDict) × Option String) :=
  match recordingNames with
  | [] => .ok st
  | recordingName :: rest =>
    match (pptyKwargs.lookup (pptyCmd ++ "_" ++ recordingName)) with
    | none => initPropertiesTargeted pptyKwargs rest pptyCmd st
    | some value =>
      match st.2 with
      | none => .error .nameError
      | some name =>
        initPropertiesTargeted pptyKwargs rest pptyCmd
          (settingsSet st.1 name value (some (.str pptyCmd)), some name)

/-- The body of init_properties for the list of property commands. -/
def initPropertiesLoop (pptyKwargs : List (String × PyVal))
    (recordingNames : List String) (pptyCmds : List String)
    (st : List (String × SettingsDict) × Option String) :
    Except PyError (List (String × SettingsDict)) :=
  match pptyCmds with
  | [] => .ok st.1
  | cmd :: rest =>
    let st1 :=
      match pptyKwargs.lookup cmd with
      | none => st
      | some value => initPropertiesGeneric recordingNames cmd value st
    match initPropertiesTargeted pptyKwargs recordingNames cmd st1 with
    | .error e => .error e
    | .ok st2 => initPropertiesLoop pptyKwargs recordingNames rest st2

/-- RecordBase.init_properties (record.py lines 251-282): build the dict of
dicts {name: {ppty_cmd: None}} and fill it from ppty_kwargs; returns the
resulting dict of initial property settings, or the Python error that the
source raises. -/
def initProperties (pptyCmds : List String) (recordingNames : List String)
    (pptyKwargs : List (String × PyVal)) :
    Except PyError (List (String × SettingsDict)) :=
  let init : List (String × SettingsDict) :=
    recordingNames.map (fun n => (n, pptyCmds.map (fun c => (PyVal.str c, none))))
  initPropertiesLoop pptyKwargs recordingNames pptyCmds (init, none)

/-- C8. The code contradicts the claim: for a hub with one recording "P" and
the generic keyword dt=10, init_properties stores the pair the wrong way
round — the entry for property "dt" stays None and a spurious key 10 maps to
"dt" — so the later application loop in data_read never sets dt to 10; and
with only the targeted keyword dt_P=60 the assignment reads the unbound
variable `name` and raises NameError. -/
theorem recto_c8_init_properties_bug :
    initProperties ["dt"] ["P"] [("dt", .num 10)] =
      .ok [("P", [(.str "dt", none), (.num 10, some (.str "dt"))])] ∧
    initProperties ["dt"] ["P"] [("dt_P", .num 60)] = .error .nameError := by
  exact ⟨rfl, rfl⟩

end Recto

-- ---------------------------------------------------------------------------
-- src/prevo/plot/oscillo.py : OscilloGraph and UpdateGraph
-- ---------------------------------------------------------------------------

namespace Oscillo

/-- Per-sensor stored data of the oscilloscope: a times list and one values
list per channel (current_data[name] and previous_data[name]). -/
structure StoredData where
  times : List ℚ
  values : List (List ℚ)
deriving DecidableEq, Repr

/-- The name-indexed stores self.current_data / self.previous_data. -/
abbrev DataDict := List (String × StoredData)

/-- Modelled from the spec: create_empty_data is defined in
prevo/plot/general.py in a revision not included in the sources (the included
general.py predates OscilloGraph).  Per the specification, each sensor store
is reset to previous = \x7btimes: [], values: [[], …]\x7d with one empty list
per channel; `channels` records the number of channels of each sensor. -/
def createEmptyData (channels : List (String × ℕ)) : DataDict :=
  channels.map (fun (n, k) => (n, ⟨[], List.replicate k []⟩))

/-- The wrap-relevant state of an OscilloGraph. -/
structure OscilloState where
  windowWidth : ℚ
  referenceTime : Option ℚ
  channels : List (String × ℕ)
  currentData : DataDict
  previousData : DataDict
deriving DecidableEq, Repr

/-- OscilloGraph.wrap (oscillo.py lines 214-218): previous_data takes the
value of current_data, current_data is reset to empty stores, and
reference_time is advanced by window_width.  reference_time is always set at
the only call site (guarded in after_getting_measurements), so the Option.map
performs exactly the source increment. -/
def wrap (st : OscilloState) : OscilloState :=
  { st with
    previousData := st.currentData,
    currentData := createEmptyData st.channels,
    referenceTime := st.referenceTime.map (fun rt => rt + st.windowWidth) }

/-- UpdateGraph.after_getting_measurements (oscillo.py lines 60-64) restricted
to the stored-data state (update_lines and update_bars only touch matplotlib
artists): wrap when `self.graph.reference_time and
(self.graph.relative_time > self.graph.window_width)`.  Python truthiness:
a reference_time of None or 0.0 fails the first test; relative_time is
now − reference_time. -/
def after_getting_measurements (now : ℚ) (st : OscilloState) : OscilloState :=
  match st.referenceTime with
  | none => st
  | some rt =>
    if rt ≠ 0 ∧ now - rt > st.windowWidth then wrap st else st

/-- Claim C3 as stated: the oscilloscope wraps exactly when the elapsed time
since reference_time exceeds window_width, and at a wrap the previous store
becomes the old current store, the current store becomes empty, and
reference_time advances by exactly window_width. -/
def ClaimC3 : Prop :=
  ∀ (st : OscilloState) (now rt : ℚ), st.referenceTime = some rt →
    ((now - rt > st.windowWidth) ↔
      ((after_getting_measurements now st).previousData = st.currentData ∧
       (after_getting_measurements now st).currentData =
         createEmptyData st.channels ∧
       (after_getting_measurements now st).referenceTime =
         some (rt + st.windowWidth)))

/-- C3, counterexample: with reference_time = 0.0 the Python truthiness test
`if self.graph.reference_time and …` is false, so no wrap happens even though
the elapsed time (20) exceeds window_width (10). -/
theorem oscillo_c3_counterexample : ¬ ClaimC3 := by
  intro h
  have h0 := (h ⟨10, some 0, [("a", 1)], [("a", ⟨[5], [[1]]⟩)],
      [("a", ⟨[], [[]]⟩)]⟩ 20 0 rfl).mp (by norm_num)
  have h1 := h0.1
  simp [after_getting_measurements] at h1

/-- C3 amended: the wrap happens exactly when reference_time is set to a
nonzero value and the elapsed time exceeds window_width (the truthiness test
of the source also rejects a reference time of exactly 0); at a wrap the
previous store after equals the current store before, the current store after
is empty, and reference_time advances by exactly window_width; otherwise the
state is unchanged. -/
theorem oscillo_c3_amended (st : OscilloState) (now rt : ℚ)
    (href : st.referenceTime = some rt) :
    (rt ≠ 0 → now - rt > st.windowWidth →
      after_getting_measurements now st = wrap st ∧
      (after_getting_measurements now st).previousData = st.currentData ∧
      (after_getting_measurements now st).currentData =
        createEmptyData st.channels ∧
      (after_getting_measurements now st).referenceTime =
        some (rt + st.windowWidth)) ∧
    (rt = 0 ∨ now - rt ≤ st.windowWidth →
      after_getting_measurements now st = st) := by
  constructor
  · intro hne hgt
    have hwrap : after_getting_measurements now st = wrap st := by
      simp [after_getting_measurements, href, hne, hgt]
    refine ⟨hwrap, ?_, ?_, ?_⟩ <;> rw [hwrap] <;> simp [wrap, href]
  · rintro (rfl | hle)
    · simp [after_getting_measurements, href]
    · simp [after_getting_measurements, href, not_lt.mpr hle]

/-- Witness for oscillo_c3_amended: a wrap at now = 25 with reference time 12
and window width 10. -/
theorem oscillo_c3_amended_witness :
    (⟨10, some 12, [("a", 1)], [("a", ⟨[15], [[2]]⟩)], [("a", ⟨[], [[]]⟩)]⟩ :
      OscilloState).referenceTime = some 12 ∧
    ((12:ℚ) ≠ 0 ∧ (25:ℚ) - 12 > 10 ∧
      after_getting_measurements 25
        ⟨10, some 12, [("a", 1)], [("a", ⟨[15], [[2]]⟩)], [("a", ⟨[], [[]]⟩)]⟩ =
        wrap ⟨10, some 12, [("a", 1)], [("a", ⟨[15], [[2]]⟩)], [("a", ⟨[], [[]]⟩)]⟩) := by
  refine ⟨rfl, by norm_num, by norm_num, ?_⟩
  exact ((oscillo_c3_amended _ 25 12 rfl).1 (by norm_num) (by norm_num)).1

/-- Boolean-mask filtering of a values list by a condition computed on the
parallel times list (numpy prev_vals[prev_condition] with prev_condition
computed from prev_times; the two lists are aligned by construction). -/
def maskFilter (keep : ℚ → Bool) : List ℚ → List ℚ → List ℚ
  | t :: ts, v :: vs =>
    if keep t then v :: maskFilter keep ts vs else maskFilter keep ts vs
  | _, _ => []

/-- OscilloGraph.update_lines (oscillo.py lines 236-285), body for one sensor
name, on rational data (timelist_to_array / datalist_to_array are the
identity-shaped conversions of scalar-data sensors).  Returns none when
neither store holds data (the source `continue`s and leaves the line artist
untouched); otherwise returns the (xs, per-channel ys) handed to
line.set_data: the current segment at t − reference_time followed by the
previous points kept by prev_condition = (t + window_width > now), drawn at
t − reference_time + window_width. -/
def update_lines_single (w rt now : ℚ) (previous current : StoredData) :
    Option (List ℚ × List (List ℚ)) :=
  let prevExists := previous.times ≠ []
  let currExists := current.times ≠ []
  if ¬(prevExists ∨ currExists) then none
  else
    let keep : ℚ → Bool := fun t => decide (t + w > now)
    let currRelTimes := current.times.map (fun t => t - rt)
    let prevRelTimes := (previous.times.filter keep).map (fun t => t - rt + w)
    let relTimes :=
      (if currExists then currRelTimes else []) ++
      (if prevExists then prevRelTimes else [])
    let vals :=
      (previous.values.zip current.values).map (fun (pv, cv) =>
        (if currExists then cv else []) ++
        (if prevExists then maskFilter keep previous.times pv else []))
    some (relTimes, vals)

/-- When some data is stored, update_lines_single hands set_data the
collapsed concatenation (the guarded segments of an empty store are empty
lists anyway). -/
theorem update_lines_single_of_data (w rt now : ℚ)
    (previous current : StoredData)
    (hex : previous.times ≠ [] ∨ current.times ≠ []) :
    update_lines_single w rt now previous current =
      some (current.times.map (fun t => t - rt) ++
              (previous.times.filter (fun t => decide (t + w > now))).map
                (fun t => t - rt + w),
            (previous.values.zip current.values).map (fun pc =>
              (if current.times ≠ [] then pc.2 else []) ++
              (if previous.times ≠ [] then
                maskFilter (fun t => decide (t + w > now)) previous.times pc.1
               else []))) := by
  simp only [update_lines_single]
  rw [if_neg (not_not_intro hex)]
  congr 1
  congr 1
  congr 1
  · by_cases hc : current.times = [] <;> simp [hc]
  · by_cases hp : previous.times = [] <;> simp [hp]

/-- C4. In a frame update that touches the line (some data is stored), the
rendered xs are the current segment followed by the previous segment; every
current point with absolute time t is drawn at x = t − reference_time; and a
previous point with absolute time t yields x = t − reference_time +
window_width in the previous segment exactly when t + window_width > now,
previous points failing the condition being discarded. -/
theorem oscillo_c4_update_lines (w rt now : ℚ) (previous current : StoredData)
    (xs : List ℚ) (ys : List (List ℚ))
    (h : update_lines_single w rt now previous current = some (xs, ys)) :
    ∃ currSeg prevSeg : List ℚ,
      xs = currSeg ++ prevSeg ∧
      currSeg = current.times.map (fun t => t - rt) ∧
      (∀ t ∈ current.times, (t - rt) ∈ currSeg) ∧
      (∀ x ∈ currSeg, ∃ t ∈ current.times, x = t - rt) ∧
      (∀ t ∈ previous.times, ((t - rt + w) ∈ prevSeg ↔ t + w > now)) ∧
      (∀ x ∈ prevSeg, ∃ t ∈ previous.times, t + w > now ∧ x = t - rt + w) := by
  have hex : previous.times ≠ [] ∨ current.times ≠ [] := by
    by_contra hcon
    push_neg at hcon
    rw [update_lines_single, if_pos] at h
    · exact Option.noConfusion h
    · push_neg
      exact hcon
  have h' := update_lines_single_of_data w rt now previous current hex
  rw [h'] at h
  have hxs : xs = current.times.map (fun t => t - rt) ++
      (previous.times.filter (fun t => decide (t + w > now))).map
        (fun t => t - rt + w) :=
    (congrArg Prod.fst (Option.some.inj h)).symm
  refine ⟨current.times.map (fun t => t - rt),
    (previous.times.filter (fun t => decide (t + w > now))).map
      (fun t => t - rt + w), hxs, rfl, ?_, ?_, ?_, ?_⟩
  · intro t ht
    exact List.mem_map_of_mem _ ht
  · intro x hx
    obtain ⟨t, ht, hteq⟩ := List.mem_map.mp hx
    exact ⟨t, ht, hteq.symm⟩
  · intro t ht
    constructor
    · intro hmem
      obtain ⟨t', ht', heq⟩ := List.mem_map.mp hmem
      obtain ⟨ht'mem, ht'keep⟩ := List.mem_filter.mp ht'
      have ht't : t' = t := by linarith
      subst ht't
      simpa using ht'keep
    · intro hgt
      exact List.mem_map_of_mem _
        (List.mem_filter.mpr ⟨ht, by simpa using hgt⟩)
  · intro x hx
    obtain ⟨t, ht, hteq⟩ := List.mem_map.mp hx
    obtain ⟨htmem, htkeep⟩ := List.mem_filter.mp ht
    exact ⟨t, htmem, by simpa using htkeep, hteq.symm⟩

/-- Witness for oscillo_c4_update_lines: window 10, reference time 10,
now = 20; previous points at t = 5 (discarded: 15 ≤ 20) and t = 11 (kept at
x = 11), one current point at t = 12 (x = 2). -/
theorem oscillo_c4_update_lines_witness :
    update_lines_single 10 10 20 ⟨[5, 11], [[50, 51]]⟩ ⟨[12], [[60]]⟩ =
      some ([2, 11], [[60, 51]]) ∧
    (∃ currSeg prevSeg : List ℚ,
      ([2, 11] : List ℚ) = currSeg ++ prevSeg ∧
      currSeg = ([12] : List ℚ).map (fun t => t - 10) ∧
      (∀ t ∈ ([12] : List ℚ), (t - 10) ∈ currSeg) ∧
      (∀ x ∈ currSeg, ∃ t ∈ ([12] : List ℚ), x = t - 10) ∧
      (∀ t ∈ ([5, 11] : List ℚ), ((t - 10 + 10) ∈ prevSeg ↔ t + 10 > 20)) ∧
      (∀ x ∈ prevSeg, ∃ t ∈ ([5, 11] : List ℚ), t + 10 > 20 ∧ x = t - 10 + 10)) := by
  have hval : update_lines_single 10 10 20 ⟨[5, 11], [[50, 51]]⟩ ⟨[12], [[60]]⟩ =
      some ([2, 11], [[60, 51]]) := by
    simp [update_lines_single, maskFilter]
    norm_num
  exact ⟨hval,
    oscillo_c4_update_lines 10 10 20 ⟨[5, 11], [[50, 51]]⟩ ⟨[12], [[60]]⟩
      [2, 11] [[60, 51]] hval⟩

end Oscillo

-- ---------------------------------------------------------------------------
-- src/prevo/record/images.py : ImageRecording image numbering
-- ---------------------------------------------------------------------------

namespace Images

/-- ImageRecording.__init__ (images.py line 163): the initial image number is
n_lines - 1 if n_lines > 1 else 0, where n_lines is the number of lines of
the (possibly pre-existing) timestamp file. -/
def initialNum (nLines : ℕ) : ℕ :=
  if nLines > 1 then nLines - 1 else 0

/-- The image numbers emitted by a session of k formatted measurements:
each reader-loop success calls format_measurement, which stamps the current
self.num into the measurement, then after_measurement, which increments
self.num by one (images.py lines 165-171). -/
def sessionNums : ℕ → ℕ → List ℕ
  | _, 0 => []
  | num, k + 1 => num :: sessionNums (num + 1) k

/-- C9. Within a session the emitted image numbers are strictly increasing
and consecutive emissions differ by exactly one; a recording created over a
pre-existing timestamp file (which holds its header, so has at least one
line) starts at the line count of that file minus one. -/
theorem images_c9_num (start k nLines : ℕ) (hfile : 1 ≤ nLines) :
    List.Pairwise (· < ·) (sessionNums start k) ∧
    (∀ i : ℕ, i + 1 < k → (sessionNums start k).get? (i + 1) =
      ((sessionNums start k).get? i).map (· + 1)) ∧
    initialNum nLines = nLines - 1 ∧
    (sessionNums (initialNum nLines) k).get? 0 =
      if k = 0 then none else some (nLines - 1) := by
  have hform : ∀ s n, sessionNums s n = (List.range n).map (s + ·) := by
    intro s n
    induction n generalizing s with
    | zero => rfl
    | succ m ih =>
      rw [List.range_succ_eq_map, List.map_cons, List.map_map]
      show s :: sessionNums (s + 1) m = _
      rw [ih (s + 1)]
      congr 1
      apply List.map_congr_left
      intro a _
      simp
      omega
  have hinit : initialNum nLines = nLines - 1 := by
    unfold initialNum
    rcases Nat.lt_or_ge 1 nLines with h1 | h1
    · rw [if_pos h1]
    · interval_cases nLines
      · rfl
  refine ⟨?_, ?_, hinit, ?_⟩
  · rw [hform]
    refine List.pairwise_map.mpr ?_
    refine List.Pairwise.imp_of_mem ?_ (List.pairwise_lt_range k)
    intro a b _ _ hab
    omega
  · intro i hik
    rw [hform, List.get?_map, List.get?_map, List.get?_range hik,
      List.get?_range (by omega)]
    simp only [Option.map_some']
    congr 1
  · cases k with
    | zero => rfl
    | succ m =>
      rw [hform, List.range_succ_eq_map]
      simp [hinit]

/-- Witness for images_c9_num: a session of three images over a timestamp
file with 5 prior lines starts at num = 4 and emits 4, 5, 6. -/
theorem images_c9_num_witness :
    1 ≤ 5 ∧ sessionNums (initialNum 5) 3 = [4, 5, 6] ∧
    List.Pairwise (· < ·) (sessionNums (initialNum 5) 3) ∧
    (sessionNums (initialNum 5) 3).get? 0 =
      if (3:ℕ) = 0 then none else some (5 - 1) := by
  have h := images_c9_num (initialNum 5) 3 5 (by norm_num)
  exact ⟨by norm_num, by decide, h.1, h.2.2.2⟩

end Images

-- ---------------------------------------------------------------------------
-- src/prevo/control/program.py : Program and Teeth
-- ---------------------------------------------------------------------------

namespace Prog

/-- program.py: time_factors = \x7b"/s": 1, "/min": 60, "/h": 3600\x7d. -/
def time_factors : List (String × ℚ) := [("/s", 1), ("/min", 60), ("/h", 3600)]

/-- program.py _seconds_to_hms: h = t // 3600, ss = t % 3600, m = ss // 60,
s = ss % 60, with Python float floor-division and (divisor-signed) modulo. -/
def seconds_to_hms (t : ℚ) : ℚ × ℚ × ℚ :=
  let h : ℚ := ⌊t / 3600⌋
  let ss : ℚ := t - 3600 * h
  let m : ℚ := ⌊ss / 60⌋
  let s : ℚ := ss - 60 * m
  (h, m, s)

/-- datetime.timedelta(hours=h, minutes=m, seconds=s).total_seconds(). -/
def timedeltaSeconds (hms : ℚ × ℚ × ℚ) : ℚ :=
  3600 * hms.1 + 60 * hms.2.1 + hms.2.2

/-- Teeth._slope_to_time (program.py lines 371-381), in seconds:
dvdt = slope / time_factors[slope_unit]; dt = abs((v2 - v1) / dvdt); dt is
split into h, m, s and repackaged as a timedelta.  A slope_unit outside the
table raises KeyError, modelled as none. -/
def slope_to_time (slope : ℚ) (slopeUnit : String) (v1 v2 : ℚ) : Option ℚ :=
  (time_factors.lookup slopeUnit).map (fun factor =>
    timedeltaSeconds (seconds_to_hms |(v2 - v1) / (slope / factor)|))

/-- program.py _circular_permutation: x[1:] + [x[0]].  The source raises
IndexError on an empty list; it is only ever applied to nonempty ones. -/
def circular_permutation {α : Type} : List α → List α
  | [] => []
  | x :: rest => rest ++ [x]

/-- list(zip(a, b, c)) for three lists (truncating zip). -/
def zip3 {α β γ : Type} : List α → List β → List γ → List (α × β × γ)
  | a :: la, b :: lb, c :: lc => (a, b, c) :: zip3 la lb lc
  | _, _, _ => []

/-- sum([[v, v] for v in values], []). -/
def dup : List ℚ → List ℚ
  | [] => []
  | v :: rest => v :: v :: dup rest

/-- sum([[plateau_duration, dt] for dt in dt_ramps], []). -/
def interleavePlateau (plateau : ℚ) : List ℚ → List ℚ
  | [] => []
  | d :: rest => plateau :: d :: interleavePlateau plateau rest

/-- [self._slope_to_time(vals) for vals in zip(values, next_values)];
none as soon as one call raises. -/
def mapSlope (slope : ℚ) (slopeUnit : String) :
    List (ℚ × ℚ) → Option (List ℚ)
  | [] => some []
  | (a, b) :: rest =>
    match slope_to_time slope slopeUnit a b, mapSlope slope slopeUnit rest with
    | some d, some ds => some (d :: ds)
    | _, _ => none

/-- Teeth.__init__ (program.py lines 281-369) followed by Program.__init__
(lines 99-111): the steps list of (origin, target, duration) triples, with
durations in seconds and plateauDur the parsed plateau_duration in seconds.
Returns none when slope_unit is not in the table or start is neither
"plateau" nor "ramp" (the source raises KeyError / ValueError). -/
def teethSteps (slope : ℚ) (slopeUnit : String) (plateauDur : ℚ)
    (start : String) (values : List ℚ) : Option (List (ℚ × ℚ × ℚ)) :=
  (mapSlope slope slopeUnit (values.zip (circular_permutation values))).bind
    (fun dtRamps =>
      let dts := interleavePlateau plateauDur dtRamps
      let pts := dup values
      if start = "plateau" then
        some (zip3 pts (circular_permutation pts) dts)
      else if start = "ramp" then
        some (zip3 (circular_permutation pts)
          (circular_permutation (circular_permutation pts))
          (circular_permutation dts))
      else
        none)

/-- The ramp duration named by the claim: |Δv| / (slope / f). -/
def rampDuration (slope factor a b : ℚ) : ℚ :=
  |(b - a) / (slope / factor)|

/-- The leg list the claim describes for start = "plateau": for each plateau
value v, a dwell (v, v, plateau) followed by a ramp from v to the next value
(the value after the last is the first one again). -/
def teethLegs (slope factor plateau : ℚ) : List ℚ → ℚ → List (ℚ × ℚ × ℚ)
  | [], _ => []
  | v :: rest, first =>
    (v, v, plateau) ::
    (v, rest.headD first, rampDuration slope factor v (rest.headD first)) ::
    teethLegs slope factor plateau rest first

/-- The consecutive-pairs list (v_i, v_{i+1}) closed by (v_last, first). -/
def pairsTo (first : ℚ) : List ℚ → List (ℚ × ℚ)
  | [] => []
  | v :: rest => (v, rest.headD first) :: pairsTo first rest

theorem timedeltaSeconds_seconds_to_hms (t : ℚ) :
    timedeltaSeconds (seconds_to_hms t) = t := by
  simp only [timedeltaSeconds, seconds_to_hms]
  ring

theorem slope_to_time_eq (slope : ℚ) (u : String) (f a b : ℚ)
    (hu : time_factors.lookup u = some f) :
    slope_to_time slope u a b = some (rampDuration slope f a b) := by
  rw [slope_to_time, hu, Option.map_some', timedeltaSeconds_seconds_to_hms]
  rfl

theorem mapSlope_eq (slope : ℚ) (u : String) (f : ℚ)
    (hu : time_factors.lookup u = some f) (l : List (ℚ × ℚ)) :
    mapSlope slope u l =
      some (l.map (fun p => rampDuration slope f p.1 p.2)) := by
  induction l with
  | nil => rfl
  | cons p rest ih =>
    obtain ⟨a, b⟩ := p
    rw [List.map_cons, mapSlope, ih, slope_to_time_eq slope u f a b hu]

theorem zip_circular (l : List ℚ) (v f : ℚ) :
    (v :: l).zip (l ++ [f]) = pairsTo f (v :: l) := by
  induction l generalizing v with
  | nil => rfl
  | cons x xs ih =>
    show (v, x) :: ((x :: xs).zip (xs ++ [f])) = _
    rw [ih x]
    rfl

theorem teeth_main (slope factor plateau : ℚ) (l : List ℚ) (v f : ℚ) :
    zip3 (v :: v :: dup l) (v :: (dup l ++ [f]))
      (interleavePlateau plateau
        ((pairsTo f (v :: l)).map (fun p => rampDuration slope factor p.1 p.2)))
      = teethLegs slope factor plateau (v :: l) f := by
  induction l generalizing v with
  | nil => rfl
  | cons x xs ih =>
    show (v, v, plateau) :: (v, x, rampDuration slope factor v x) ::
        zip3 (x :: x :: dup xs) (x :: (dup xs ++ [f]))
          (interleavePlateau plateau
            ((pairsTo f (x :: xs)).map
              (fun p => rampDuration slope factor p.1 p.2))) = _
    rw [ih x]
    rfl

theorem zip3_append_last {α β γ : Type} (la : List α) (lb : List β)
    (lc : List γ) (a : α) (b : β) (c : γ)
    (hab : la.length = lb.length) (hac : la.length = lc.length) :
    zip3 (la ++ [a]) (lb ++ [b]) (lc ++ [c]) = zip3 la lb lc ++ [(a, b, c)] := by
  induction la generalizing lb lc with
  | nil =>
    cases lb with
    | nil =>
      cases lc with
      | nil => rfl
      | cons z zs => exact absurd hac (by simp)
    | cons y ys => exact absurd hab (by simp)
  | cons x xs ih =>
    cases lb with
    | nil => exact absurd hab (by simp)
    | cons y ys =>
      cases lc with
      | nil => exact absurd hac (by simp)
      | cons z zs =>
        show (x, y, z) :: zip3 (xs ++ [a]) (ys ++ [b]) (zs ++ [c]) = _
        rw [ih ys zs (by simpa using hab) (by simpa using hac)]
        rfl

theorem zip3_circular {α β γ : Type} (la : List α) (lb : List β) (lc : List γ)
    (hab : la.length = lb.length) (hac : la.length = lc.length) :
    zip3 (circular_permutation la) (circular_permutation lb)
        (circular_permutation lc) =
      circular_permutation (zip3 la lb lc) := by
  cases la with
  | nil =>
    cases lb with
    | nil =>
      cases lc with
      | nil => rfl
      | cons z zs => exact absurd hac (by simp)
    | cons y ys => exact absurd hab (by simp)
  | cons x xs =>
    cases lb with
    | nil => exact absurd hab (by simp)
    | cons y ys =>
      cases lc with
      | nil => exact absurd hac (by simp)
      | cons z zs =>
        show zip3 (xs ++ [x]) (ys ++ [y]) (zs ++ [z]) =
          circular_permutation ((x, y, z) :: zip3 xs ys zs)
        rw [zip3_append_last xs ys zs x y z (by simpa using hab)
          (by simpa using hac)]
        rfl

theorem circular_permutation_length {α : Type} (l : List α) :
    (circular_permutation l).length = l.length := by
  cases l with
  | nil => rfl
  | cons x xs => simp [circular_permutation]

theorem dup_length (l : List ℚ) : (dup l).length = 2 * l.length := by
  induction l with
  | nil => rfl
  | cons x xs ih => simp [dup, ih]; ring

theorem interleavePlateau_length (p : ℚ) (l : List ℚ) :
    (interleavePlateau p l).length = 2 * l.length := by
  induction l with
  | nil => rfl
  | cons x xs ih => simp [interleavePlateau, ih]; ring

theorem pairsTo_length (f : ℚ) (l : List ℚ) :
    (pairsTo f l).length = l.length := by
  induction l with
  | nil => rfl
  | cons x xs ih => simp [pairsTo, ih]

/-- C7. A Teeth program over a nonempty plateau list expands, for
start = "plateau", into the alternating dwell/ramp legs with ramp durations
|Δv| / (slope / f) (f the per-second factor of the slope unit); for
start = "ramp" the resulting steps are the circular permutation of those
legs, so the cycle begins with the first ramp.  In particular, slope = 25
"/min", plateau 1 h 20 min (4800 s) and plateaus [3000, 2000, 3000, 1000]
with start = "ramp" give ramps of 40, 40, 80 and 80 minutes interleaved with
the 4800 s plateaus. -/
theorem program_c7_teeth :
    (∀ (slope plateau : ℚ) (u : String) (f : ℚ) (v : ℚ) (l : List ℚ),
      time_factors.lookup u = some f →
      teethSteps slope u plateau "plateau" (v :: l) =
        some (teethLegs slope f plateau (v :: l) v) ∧
      teethSteps slope u plateau "ramp" (v :: l) =
        some (circular_permutation (teethLegs slope f plateau (v :: l) v))) ∧
    teethSteps 25 "/min" 4800 "ramp" [3000, 2000, 3000, 1000] =
      some [(3000, 2000, 2400), (2000, 2000, 4800), (2000, 3000, 2400),
            (3000, 3000, 4800), (3000, 1000, 4800), (1000, 1000, 4800),
            (1000, 3000, 4800), (3000, 3000, 4800)] := by
  have hkey : ∀ (slope plateau : ℚ) (u : String) (f : ℚ) (v : ℚ) (l : List ℚ),
      time_factors.lookup u = some f →
      teethSteps slope u plateau "plateau" (v :: l) =
        some (teethLegs slope f plateau (v :: l) v) ∧
      teethSteps slope u plateau "ramp" (v :: l) =
        some (circular_permutation (teethLegs slope f plateau (v :: l) v)) := by
    intro slope plateau u f v l hu
    have hzip : (v :: l).zip (circular_permutation (v :: l)) =
        pairsTo v (v :: l) := by
      show (v :: l).zip (l ++ [v]) = _
      exact zip_circular l v v
    have hmap : mapSlope slope u ((v :: l).zip (circular_permutation (v :: l)))
        = some ((pairsTo v (v :: l)).map
            (fun p => rampDuration slope f p.1 p.2)) := by
      rw [mapSlope_eq slope u f hu, hzip]
    have hcircdup : circular_permutation (dup (v :: l)) = v :: (dup l ++ [v]) := by
      show (v :: dup l) ++ [v] = _
      simp
    have hsteps : zip3 (dup (v :: l)) (circular_permutation (dup (v :: l)))
        (interleavePlateau plateau
          ((pairsTo v (v :: l)).map (fun p => rampDuration slope f p.1 p.2)))
        = teethLegs slope f plateau (v :: l) v := by
      rw [hcircdup]
      exact teeth_main slope f plateau l v v
    have hlen1 : (dup (v :: l)).length =
        (circular_permutation (dup (v :: l))).length :=
      (circular_permutation_length (dup (v :: l))).symm
    have hlen2 : (dup (v :: l)).length =
        (interleavePlateau plateau
          ((pairsTo v (v :: l)).map
            (fun p => rampDuration slope f p.1 p.2))).length := by
      rw [dup_length, interleavePlateau_length, List.length_map, pairsTo_length]
    constructor
    · rw [teethSteps, hmap, Option.some_bind]
      rw [if_pos rfl]
      rw [hsteps]
    · rw [teethSteps, hmap, Option.some_bind]
      rw [if_neg (by simp : ¬("ramp" = "plateau"))]
      rw [if_pos rfl]
      rw [zip3_circular _ _ _ hlen1 hlen2]
      rw [hsteps]
  refine ⟨hkey, ?_⟩
  have hconc := (hkey 25 4800 "/min" 60 3000 [2000, 3000, 1000] rfl).2
  rw [hconc]
  norm_num [teethLegs, rampDuration, circular_permutation]

/-- Witness for program_c7_teeth: the general part applied to the concrete
teeth program of the claim (slope 25 per minute, plateaus
[3000, 2000, 3000, 1000]). -/
theorem program_c7_teeth_witness :
    time_factors.lookup "/min" = some 60 ∧
    teethSteps 25 "/min" 4800 "plateau" [3000, 2000, 3000, 1000] =
      some (teethLegs 25 60 4800 [3000, 2000, 3000, 1000] 3000) := by
  exact ⟨rfl,
    (program_c7_teeth.1 25 4800 "/min" 60 3000 [2000, 3000, 1000] rfl).1⟩

end Prog
